import Mathlib

/-!
Shallow embedding of the WA_CRM_BOT shift/ledger accounting core
(`crm_bot/services/shifts.py`, `crm_bot/services/deals.py`,
`crm_bot/services/admin.py`, `crm_bot/core/models.py`, and the installment
arithmetic of `crm_bot/handlers/manage.py`).

Python `Decimal` amounts are modelled as `ℚ` (the service layer performs only
exact additions/subtractions; the single rounding step, `quantize(1,
ROUND_HALF_UP)`, is modelled explicitly by `roundHalfUp`).  Timestamps are
abstract `Nat` instants supplied by the caller (the code reads the Moscow wall
clock).  A SQLAlchemy session is modelled as an explicit `DBState`; a raised
service exception corresponds to an `Except.error` result, and the
`db_session` context manager rolls the transaction back wholesale on an
exception, so an erroring call leaves the state unchanged (`applyOp`).
-/

namespace Crm

/-- `UserRole` enum of `core/models.py`. -/
inductive UserRole
  | WORKER
  | ADMIN
deriving Repr, DecidableEq

/-- `ShiftStatus` enum of `core/models.py`. -/
inductive ShiftStatus
  | OPEN
  | CLOSED
deriving Repr, DecidableEq

/-- `CashTransactionType` enum of `core/models.py`. -/
inductive CashTransactionType
  | OPENING
  | DEAL_ISSUED
  | ADJUSTMENT
deriving Repr, DecidableEq

/-- `DealPaymentMethod` enum of `core/models.py`. -/
inductive DealPaymentMethod
  | CASH
  | BANK
deriving Repr, DecidableEq

/-- `DealType` enum of `core/models.py`. -/
inductive DealType
  | OPERATION
  | INSTALLMENT
deriving Repr, DecidableEq

/-- `users` table row (`core/models.py`): identity, role, active flag. -/
structure User where
  id : Nat
  phone : String
  name : Option String := none
  role : UserRole
  isActive : Bool := true
deriving Repr, DecidableEq

/-- `shifts` table row (`core/models.py`).  `opened_at` is a DB server
default untouched by the service code and is omitted; all other
service-visible columns are present.  Money columns are non-nullable. -/
structure Shift where
  id : Nat
  workerId : Nat
  closedAt : Option Nat := none
  openingBalanceCash : ℚ
  openingBalanceBank : ℚ
  currentBalanceCash : ℚ
  currentBalanceBank : ℚ
  openingBalance : ℚ
  currentBalance : ℚ
  reportedCash : Option ℚ := none
  reportedBank : Option ℚ := none
  reportedAt : Option Nat := none
  cashDiff : Option ℚ := none
  bankDiff : Option ℚ := none
  status : ShiftStatus
deriving Repr, DecidableEq

/-- `deals` table row (`core/models.py`).  `worker_id`/`shift_id` are
nullable in the schema (SET NULL on user/shift deletion) but are always
populated by `create_deal`, the only writer in scope, so they are kept
plain `Nat` here. -/
structure Deal where
  id : Nat
  workerId : Nat
  shiftId : Nat
  clientName : String
  clientPhone : Option String := none
  totalAmount : ℚ
  paymentMethod : DealPaymentMethod
  comment : Option String := none
  dealType : DealType
  productPrice : Option ℚ := none
  markupPercent : Option ℚ := none
  markupAmount : Option ℚ := none
  installmentTermMonths : Option Nat := none
  downPaymentAmount : Option ℚ := none
  installmentTotalAmount : Option ℚ := none
  monthlyPaymentAmount : Option ℚ := none
  createdAt : Nat
  isDeleted : Bool := false
deriving Repr, DecidableEq

/-- `cash_transactions` table row (`core/models.py`). -/
structure CashTransaction where
  workerId : Nat
  shiftId : Nat
  dealId : Option Nat := none
  createdBy : Option Nat := none
  type : CashTransactionType
  amountDelta : ℚ
deriving Repr, DecidableEq

/-- The persistent store: the tables the ledger services touch, plus the
autoincrement counters that stand for the primary-key sequences. -/
structure DBState where
  users : List User := []
  shifts : List Shift := []
  deals : List Deal := []
  txs : List CashTransaction := []
  nextShiftId : Nat := 1
  nextDealId : Nat := 1
deriving Repr, DecidableEq

/-- Empty database: no rows exist before the first service call. -/
def initState : DBState := {}

/-- The error taxonomy of the service layer: `ValidationError`,
`NoActiveShift` (`services/shifts.py`) and `Forbidden` (`services/deals.py`).
Each carries the user-facing message passed to the constructor. -/
inductive SvcError
  | validation (msg : String)
  | noActiveShift (msg : String)
  | forbidden (msg : String)
deriving Repr, DecidableEq

/-- `get_active_shift` (`services/shifts.py`): the shift of `worker_id`
with `status == OPEN`, if any (`one_or_none`). -/
def get_active_shift (workerId : Nat) (s : DBState) : Option Shift :=
  s.shifts.find? (fun sh => sh.workerId == workerId && sh.status == ShiftStatus.OPEN)

/-- `open_shift` (`services/shifts.py`): validates the opening amounts,
rejects a second open shift, then inserts the Shift row and the `OPENING`
ledger entry. -/
def open_shift (worker : User) (openingBalanceCash openingBalanceBank : ℚ)
    (s : DBState) : Except SvcError (Shift × DBState) :=
  if openingBalanceCash < 0 ∨ openingBalanceBank < 0 then
    .error (.validation "Суммы должны быть неотрицательными.")
  else if openingBalanceCash = 0 ∧ openingBalanceBank = 0 then
    .error (.validation "Нужно указать хотя бы одно значение больше 0.")
  else
    let total := openingBalanceCash + openingBalanceBank
    match get_active_shift worker.id s with
    | some _ => .error (.validation "У вас уже есть открытая смена.")
    | none =>
        let shift : Shift :=
          { id := s.nextShiftId
            workerId := worker.id
            openingBalanceCash := openingBalanceCash
            openingBalanceBank := openingBalanceBank
            currentBalanceCash := openingBalanceCash
            currentBalanceBank := openingBalanceBank
            openingBalance := total
            currentBalance := total
            status := ShiftStatus.OPEN }
        let tx : CashTransaction :=
          { workerId := worker.id
            shiftId := shift.id
            type := CashTransactionType.OPENING
            amountDelta := total }
        .ok (shift,
          { s with
              shifts := s.shifts ++ [shift]
              txs := s.txs ++ [tx]
              nextShiftId := s.nextShiftId + 1 })

/-- `close_open_shifts` (`services/shifts.py`): closes every `OPEN` shift,
stamping `closed_at`, and returns how many were open.  Reconciliation
fields are not touched. -/
def close_open_shifts (now : Nat) (s : DBState) : Nat × DBState :=
  ((s.shifts.filter (fun sh => sh.status == ShiftStatus.OPEN)).length,
    { s with
        shifts := s.shifts.map (fun sh =>
          if sh.status == ShiftStatus.OPEN then
            { sh with status := ShiftStatus.CLOSED, closedAt := some now }
          else sh) })

/-- The in-place mutation `adjust_balance` performs on the row it found:
`delta` goes to the bank balance when `method == "bank"`, else to cash, and
the combined balance is recomputed. -/
def adjustUpd (delta : ℚ) (method : Option DealPaymentMethod) (c : Shift) : Shift :=
  let c2 :=
    if method = some DealPaymentMethod.BANK then
      { c with currentBalanceBank := c.currentBalanceBank + delta }
    else
      { c with currentBalanceCash := c.currentBalanceCash + delta }
  { c2 with currentBalance := c2.currentBalanceCash + c2.currentBalanceBank }

/-- `adjust_balance` (`services/shifts.py`): requires an open shift,
applies `adjustUpd` to its row and appends an `ADJUSTMENT` ledger entry.
No lower-bound check. -/
def adjust_balance (worker : User) (delta : ℚ) (method : Option DealPaymentMethod)
    (createdBy : Option Nat) (s : DBState) : Except SvcError (Shift × DBState) :=
  match get_active_shift worker.id s with
  | none => .error (.noActiveShift "Нет активной смены.")
  | some sh =>
      let tx : CashTransaction :=
        { workerId := worker.id
          shiftId := sh.id
          type := CashTransactionType.ADJUSTMENT
          amountDelta := delta
          createdBy := createdBy }
      .ok (adjustUpd delta method sh,
        { s with
            shifts := s.shifts.map (fun c =>
              if c.id = sh.id then adjustUpd delta method c else c)
            txs := s.txs ++ [tx] })

/-- The field updates `close_shift` applies to the row it closes: mark it
`CLOSED` with `closed_at = now`; when at least one reported amount is given
it captures the expected balances, fills the missing side from them, and
sets `diff = expected − reported` and `reported_at`. -/
def closeShiftUpd (reportedCash reportedBank : Option ℚ) (now : Nat)
    (c : Shift) : Shift :=
  let c1 := { c with status := ShiftStatus.CLOSED, closedAt := some now }
  if reportedCash.isSome || reportedBank.isSome then
    let expectedCash := c1.currentBalanceCash
    let expectedBank := c1.currentBalanceBank
    let cashValue := reportedCash.getD expectedCash
    let bankValue := reportedBank.getD expectedBank
    { c1 with
        reportedCash := some cashValue
        reportedBank := some bankValue
        cashDiff := some (expectedCash - cashValue)
        bankDiff := some (expectedBank - bankValue)
        reportedAt := some now }
  else c1

/-- `close_shift` (`services/shifts.py`): requires an open shift and
applies `closeShiftUpd` to its row. -/
def close_shift (worker : User) (reportedCash reportedBank : Option ℚ)
    (now : Nat) (s : DBState) : Except SvcError (Shift × DBState) :=
  match get_active_shift worker.id s with
  | none => .error (.noActiveShift "Нет активной смены.")
  | some sh =>
      .ok (closeShiftUpd reportedCash reportedBank now sh,
        { s with shifts := s.shifts.map (fun c =>
            if c.id = sh.id then closeShiftUpd reportedCash reportedBank now c
            else c) })

/-- `get_last_closed_shift` (`services/shifts.py`): the closed shift with
the greatest `closed_at` (read-only convenience query). -/
def get_last_closed_shift (workerId : Nat) (s : DBState) : Option Shift :=
  ((s.shifts.filter (fun sh =>
      sh.workerId == workerId && sh.status == ShiftStatus.CLOSED && sh.closedAt.isSome)).mergeSort
    (fun a b => b.closedAt.getD 0 ≤ a.closedAt.getD 0)).head?

/-- `(client_name or "Без имени").strip() or "Без имени"` in `create_deal`
(`services/deals.py`). -/
def normalizeClientName (clientName : Option String) : String :=
  let base :=
    match clientName with
    | none => "Без имени"
    | some t => if t = "" then "Без имени" else t
  if base.trim = "" then "Без имени" else base.trim

/-- `(comment or "").strip() or None` in `create_deal` (`services/deals.py`). -/
def normalizeOptComment (comment : Option String) : Option String :=
  let trimmed := (comment.getD "").trim
  if trimmed = "" then none else some trimmed

/-- `(client_phone or "").strip() or None` in `create_deal`
(`services/deals.py`). -/
def normalizeOptPhone (clientPhone : Option String) : Option String :=
  let trimmed := (clientPhone.getD "").trim
  if trimmed = "" then none else some trimmed

/-- The `installment_data` dict handed to `create_deal` by the installment
flow of `handlers/manage.py`; `dict.get` of a missing key is `None`. -/
structure InstallmentData where
  productPrice : Option ℚ := none
  markupPercent : Option ℚ := none
  markupAmount : Option ℚ := none
  installmentTermMonths : Option Nat := none
  downPaymentAmount : Option ℚ := none
  installmentTotalAmount : Option ℚ := none
  monthlyPaymentAmount : Option ℚ := none
deriving Repr, DecidableEq

/-- The shift-balance mutation `create_deal` performs on the row it found:
the amount goes to the balance of the chosen method and the combined balance is
recomputed. -/
def dealShiftUpd (amt : ℚ) (method : DealPaymentMethod) (c : Shift) : Shift :=
  let c2 :=
    if method = DealPaymentMethod.CASH then
      { c with currentBalanceCash := c.currentBalanceCash + amt }
    else
      { c with currentBalanceBank := c.currentBalanceBank + amt }
  { c2 with currentBalance := c2.currentBalanceCash + c2.currentBalanceBank }

/-- `create_deal` (`services/deals.py`): rejects a zero amount, requires an
open shift (same query as `get_active_shift`), rejects a debit that would
drive the balance of the chosen method negative, then inserts the Deal row,
updates the shift balances and appends a `DEAL_ISSUED` ledger entry. -/
def create_deal (worker : User) (clientName clientPhone : Option String)
    (totalAmount : ℚ) (paymentMethod : Option DealPaymentMethod)
    (comment : Option String) (dealType : DealType)
    (installmentData : Option InstallmentData) (now : Nat) (s : DBState) :
    Except SvcError (Deal × DBState) :=
  if totalAmount = 0 then
    .error (.validation "Сумма операции должна быть отлична от 0.")
  else
    let method := paymentMethod.getD DealPaymentMethod.CASH
    match get_active_shift worker.id s with
    | none => .error (.noActiveShift "Сначала открой смену.")
    | some shift =>
        let cashBalance := shift.currentBalanceCash
        let bankBalance := shift.currentBalanceBank
        let targetBalance :=
          if method = DealPaymentMethod.CASH then cashBalance else bankBalance
        if totalAmount < 0 ∧ targetBalance + totalAmount < 0 then
          .error (.validation "Недостаточно лимита для списания.")
        else
          let base : Deal :=
            { id := s.nextDealId
              workerId := worker.id
              shiftId := shift.id
              clientName := normalizeClientName clientName
              clientPhone := normalizeOptPhone clientPhone
              totalAmount := totalAmount
              paymentMethod := method
              comment := normalizeOptComment comment
              dealType := dealType
              createdAt := now }
          let deal : Deal :=
            match dealType, installmentData with
            | DealType.INSTALLMENT, some idata =>
                { base with
                    productPrice := idata.productPrice
                    markupPercent := idata.markupPercent
                    markupAmount := idata.markupAmount
                    installmentTermMonths := idata.installmentTermMonths
                    downPaymentAmount := idata.downPaymentAmount
                    installmentTotalAmount := idata.installmentTotalAmount
                    monthlyPaymentAmount := idata.monthlyPaymentAmount }
            | _, _ => base
          let tx : CashTransaction :=
            { workerId := worker.id
              shiftId := shift.id
              dealId := some deal.id
              type := CashTransactionType.DEAL_ISSUED
              amountDelta := totalAmount }
          .ok (deal,
            { s with
                deals := s.deals ++ [deal]
                shifts := s.shifts.map (fun c =>
                  if c.id = shift.id then dealShiftUpd totalAmount method shift
                  else c)
                txs := s.txs ++ [tx]
                nextDealId := s.nextDealId + 1 })

/-- `soft_delete_deal` (`services/deals.py`): only an admin may delete;
looks the Deal up by primary key (deleted or not) and flips `is_deleted`.
No balance or ledger change. -/
def soft_delete_deal (admin : User) (dealId : Nat) (s : DBState) :
    Except SvcError (Deal × DBState) :=
  if admin.role ≠ UserRole.ADMIN then
    .error (.forbidden "Только админ может удалять операции.")
  else
    match s.deals.find? (fun d => d.id == dealId) with
    | none => .error (.validation "Операция не найдена.")
    | some d =>
        .ok ({ d with isDeleted := true },
          { s with
              deals := s.deals.map (fun x =>
                if x.id = dealId then { x with isDeleted := true } else x) })

/-- `list_worker_deals` (`services/deals.py`): the non-deleted deals of the
worker, newest first, limited. -/
def list_worker_deals (worker : User) (limit : Nat) (s : DBState) : List Deal :=
  ((s.deals.filter (fun d => d.workerId == worker.id && !d.isDeleted)).mergeSort
    (fun a b => b.createdAt ≤ a.createdAt)).take limit

/-- `get_worker_deal` (`services/deals.py`): one non-deleted deal of the
worker by id. -/
def get_worker_deal (worker : User) (dealId : Nat) (s : DBState) : Option Deal :=
  s.deals.find? (fun d => d.id == dealId && d.workerId == worker.id && !d.isDeleted)

/-- `get_balance_breakdown` (`services/deals.py`): `{cash, bank, total}` of
the open shift. -/
def get_balance_breakdown (worker : User) (s : DBState) :
    Except SvcError (ℚ × ℚ × ℚ) :=
  match get_active_shift worker.id s with
  | none => .error (.noActiveShift "Нет активной смены.")
  | some sh =>
      .ok (sh.currentBalanceCash, sh.currentBalanceBank,
        sh.currentBalanceCash + sh.currentBalanceBank)

/-- `get_active_user_by_phone` (`services/users.py`): the active user whose
phone equals the canonical form of the argument.  Phones are taken as
already canonical here (`normalize_phone` is pure string massaging that
either yields the canonical `7XXXXXXXXXX@c.us` form or raises before any
state is read, and no claim depends on it). -/
def get_active_user_by_phone (phone : String) (s : DBState) : Option User :=
  s.users.find? (fun u => u.phone == phone && u.isActive)

/-- `adjust_worker_balance` (`services/admin.py`): the admin-initiated
balance adjustment.  Rejects a non-admin caller with the admin-service
`ValidationError`, resolves the worker by phone, then delegates to
`adjust_balance` with `method or CASH` and `created_by = admin`. -/
def adjust_worker_balance (admin : User) (workerPhone : String) (delta : ℚ)
    (method : Option DealPaymentMethod) (s : DBState) :
    Except SvcError (Shift × DBState) :=
  if admin.role ≠ UserRole.ADMIN then
    .error (.validation "Только админ может корректировать баланс.")
  else
    match get_active_user_by_phone workerPhone s with
    | none => .error (.validation "Сотрудник не найден или неактивен.")
    | some worker =>
        adjust_balance worker delta (some (method.getD DealPaymentMethod.CASH))
          (some admin.id) s

/-- One row of `_aggregate_columns` (`services/admin.py`): the aggregate
every report query computes over a set of deals. -/
structure Aggregate where
  totalCount : Nat
  netSum : ℚ
  issuedSum : ℚ
  issuedCount : Nat
  returnSum : ℚ
  returnCount : Nat
  cashSum : ℚ
  cashCount : Nat
  bankSum : ℚ
  bankCount : Nat
deriving Repr, DecidableEq

/-- `_aggregate_columns` (`services/admin.py`) evaluated over a list of
Deal rows: sums and counts split by sign and by payment method. -/
def aggregate_columns (l : List Deal) : Aggregate :=
  { totalCount := l.length
    netSum := (l.map (·.totalAmount)).sum
    issuedSum := (l.map (fun d => if 0 < d.totalAmount then d.totalAmount else 0)).sum
    issuedCount := l.countP (fun d => decide (0 < d.totalAmount))
    returnSum := (l.map (fun d => if d.totalAmount < 0 then -d.totalAmount else 0)).sum
    returnCount := l.countP (fun d => decide (d.totalAmount < 0))
    cashSum := (l.map (fun d =>
      if d.paymentMethod = DealPaymentMethod.CASH then d.totalAmount else 0)).sum
    cashCount := l.countP (fun d => d.paymentMethod == DealPaymentMethod.CASH)
    bankSum := (l.map (fun d =>
      if d.paymentMethod = DealPaymentMethod.BANK then d.totalAmount else 0)).sum
    bankCount := l.countP (fun d => d.paymentMethod == DealPaymentMethod.BANK) }

/-- The base filter of `build_deals_report` (`services/admin.py`): deals
that are not soft-deleted, fall inside the period, and (optionally) belong
to the given worker.  Period bounds are the already-converted storage
instants of the start/end of day. -/
def report_deals (startT endT : Nat) (workerFilter : Option Nat) (s : DBState) :
    List Deal :=
  s.deals.filter (fun d =>
    !d.isDeleted && startT ≤ d.createdAt && d.createdAt ≤ endT &&
      (match workerFilter with
       | none => true
       | some w => d.workerId == w))

/-- The aggregate `build_deals_report` prints for the period
(`summary = query(_aggregate_columns()).filter(...)`). -/
def build_deals_report_summary (startT endT : Nat) (workerFilter : Option Nat)
    (s : DBState) : Aggregate :=
  aggregate_columns (report_deals startT endT workerFilter s)

/-- `ROUND_HALF_UP` of Python `Decimal.quantize(Decimal("1"))`: round to a
whole unit, ties away from zero. -/
def roundHalfUp (q : ℚ) : ℤ :=
  if 0 ≤ q then ⌊q + 1 / 2⌋ else -⌊-q + 1 / 2⌋

/-- `_calc_installment_total` (`handlers/manage.py`): returns
`(price, percent, markup, total)` with `markup = price * percent / 100`
and `total = price + markup`. -/
def calc_installment_total (price percent : ℚ) : ℚ × ℚ × ℚ × ℚ :=
  let markup := price * percent / 100
  (price, percent, markup, price + markup)

/-- The monthly-payment computation of `handle_installment_states`
(`handlers/manage.py`): `remaining = total − down_payment`, then
`(remaining / term if term else remaining).quantize(1, ROUND_HALF_UP)`. -/
def installment_monthly (total downPayment : ℚ) (term : Nat) : ℤ :=
  let remaining := total - downPayment
  roundHalfUp (if term = 0 then remaining else remaining / (term : ℚ))

/-- The ledger-mutating service calls, as a single alphabet of operations
for the reachability relation. -/
inductive Op
  | openShift (worker : User) (cash bank : ℚ)
  | closeShift (worker : User) (reportedCash reportedBank : Option ℚ) (now : Nat)
  | createDeal (worker : User) (clientName clientPhone : Option String)
      (totalAmount : ℚ) (paymentMethod : Option DealPaymentMethod)
      (comment : Option String) (dealType : DealType)
      (installmentData : Option InstallmentData) (now : Nat)
  | adjustBalance (worker : User) (delta : ℚ) (method : Option DealPaymentMethod)
      (createdBy : Option Nat)
  | closeOpenShifts (now : Nat)
  | softDeleteDeal (admin : User) (dealId : Nat)
  | adjustWorkerBalance (admin : User) (workerPhone : String) (delta : ℚ)
      (method : Option DealPaymentMethod)

/-- State transition of one service call.  A raised exception makes
`db_session` roll the transaction back wholesale, so an erroring call
leaves the database unchanged. -/
def applyOp (op : Op) (s : DBState) : DBState :=
  match op with
  | .openShift w c b =>
      match open_shift w c b s with
      | .ok (_, s2) => s2
      | .error _ => s
  | .closeShift w rc rb now =>
      match close_shift w rc rb now s with
      | .ok (_, s2) => s2
      | .error _ => s
  | .createDeal w cn cp amt pm cm dt idata now =>
      match create_deal w cn cp amt pm cm dt idata now s with
      | .ok (_, s2) => s2
      | .error _ => s
  | .adjustBalance w delta m cb =>
      match adjust_balance w delta m cb s with
      | .ok (_, s2) => s2
      | .error _ => s
  | .closeOpenShifts now => (close_open_shifts now s).2
  | .softDeleteDeal a dealId =>
      match soft_delete_deal a dealId s with
      | .ok (_, s2) => s2
      | .error _ => s
  | .adjustWorkerBalance a phone delta m =>
      match adjust_worker_balance a phone delta m s with
      | .ok (_, s2) => s2
      | .error _ => s

/-- Database states reachable from the empty database by service calls. -/
inductive Reachable : DBState → Prop
  | init : Reachable initState
  | step (s : DBState) (op : Op) : Reachable s → Reachable (applyOp op s)

/-- Number of `OPEN` shifts of a worker — the quantity the single-open-shift
invariant bounds. -/
def countOpenFor (workerId : Nat) (s : DBState) : Nat :=
  s.shifts.countP (fun sh => sh.workerId == workerId && sh.status == ShiftStatus.OPEN)

/-- Whether a service call result is a `Forbidden` error (used to state
which error class an operation raises). -/
def isForbiddenResult {A : Type} : Except SvcError A → Bool
  | .error (.forbidden _) => true
  | _ => false

/-- The primary-key / ledger invariants every reachable database state
satisfies: at most one open shift per worker, shift ids below the sequence
counter and unique, and reconciliation fields unset while a shift is open. -/
structure Invariant (s : DBState) : Prop where
  openCount : ∀ w, countOpenFor w s ≤ 1
  shiftIdLt : ∀ sh ∈ s.shifts, sh.id < s.nextShiftId
  shiftIdInj : ∀ a ∈ s.shifts, ∀ b ∈ s.shifts, a.id = b.id → a = b
  openClean : ∀ sh ∈ s.shifts, sh.status = ShiftStatus.OPEN →
    sh.reportedCash = none ∧ sh.reportedBank = none ∧ sh.cashDiff = none ∧
    sh.bankDiff = none ∧ sh.reportedAt = none

/-! Concrete fixtures used by the witness theorems. -/

/-- A sample worker account. -/
def worker1 : User := { id := 1, phone := "79990000001@c.us", role := UserRole.WORKER }

/-- A sample admin account. -/
def admin1 : User := { id := 2, phone := "79990000002@c.us", role := UserRole.ADMIN }

/-- The shift `open_shift worker1 100 0` creates on the empty database. -/
def exampleShift1 : Shift :=
  { id := 1
    workerId := 1
    openingBalanceCash := 100
    openingBalanceBank := 0
    currentBalanceCash := 100
    currentBalanceBank := 0
    openingBalance := 100
    currentBalance := 100
    status := ShiftStatus.OPEN }

/-- The `OPENING` ledger entry of that call. -/
def exampleTx1 : CashTransaction :=
  { workerId := 1, shiftId := 1, type := CashTransactionType.OPENING, amountDelta := 100 }

/-- The database after `open_shift worker1 100 0` on empty. -/
def exampleState1 : DBState :=
  { shifts := [exampleShift1], txs := [exampleTx1], nextShiftId := 2, nextDealId := 1 }

/-- A sample deal of worker 1 on shift 1. -/
def exampleDeal1 : Deal :=
  { id := 1, workerId := 1, shiftId := 1, clientName := "Без имени",
    totalAmount := 50, paymentMethod := DealPaymentMethod.CASH,
    dealType := DealType.OPERATION, createdAt := 6 }

/-- `exampleState1` after recording `exampleDeal1` (+50 cash). -/
def exampleState2 : DBState :=
  { shifts := [{ exampleShift1 with
      currentBalanceCash := 150, currentBalance := 150 }]
    deals := [exampleDeal1]
    txs := [exampleTx1,
      { workerId := 1, shiftId := 1, dealId := some 1,
        type := CashTransactionType.DEAL_ISSUED, amountDelta := 50 }]
    nextShiftId := 2
    nextDealId := 2 }

lemma open_shift_example :
    open_shift worker1 100 0 initState = .ok (exampleShift1, exampleState1) := by
  norm_num [open_shift, get_active_shift, initState, worker1, exampleShift1,
    exampleState1, exampleTx1]

lemma exampleState1_reachable : Reachable exampleState1 := by
  have h := Reachable.step initState (Op.openShift worker1 100 0) Reachable.init
  simpa [applyOp, open_shift_example] using h

/-- `dealShiftUpd` only touches the balance columns. -/
lemma dealShiftUpd_frame (amt : ℚ) (m : DealPaymentMethod) (c : Shift) :
    (dealShiftUpd amt m c).id = c.id ∧
    (dealShiftUpd amt m c).workerId = c.workerId ∧
    (dealShiftUpd amt m c).status = c.status ∧
    (dealShiftUpd amt m c).reportedCash = c.reportedCash ∧
    (dealShiftUpd amt m c).reportedBank = c.reportedBank ∧
    (dealShiftUpd amt m c).cashDiff = c.cashDiff ∧
    (dealShiftUpd amt m c).bankDiff = c.bankDiff ∧
    (dealShiftUpd amt m c).reportedAt = c.reportedAt := by
  cases m <;> simp [dealShiftUpd]

/-- The balance fields `dealShiftUpd` writes. -/
lemma dealShiftUpd_balances (amt : ℚ) (m : DealPaymentMethod) (c : Shift) :
    (m = DealPaymentMethod.CASH →
      (dealShiftUpd amt m c).currentBalanceCash = c.currentBalanceCash + amt ∧
      (dealShiftUpd amt m c).currentBalanceBank = c.currentBalanceBank) ∧
    (m = DealPaymentMethod.BANK →
      (dealShiftUpd amt m c).currentBalanceBank = c.currentBalanceBank + amt ∧
      (dealShiftUpd amt m c).currentBalanceCash = c.currentBalanceCash) ∧
    (dealShiftUpd amt m c).currentBalance =
      (dealShiftUpd amt m c).currentBalanceCash +
        (dealShiftUpd amt m c).currentBalanceBank := by
  cases m <;> simp [dealShiftUpd]

/-- `adjustUpd` only touches the balance columns. -/
lemma adjustUpd_frame (delta : ℚ) (m : Option DealPaymentMethod) (c : Shift) :
    (adjustUpd delta m c).id = c.id ∧
    (adjustUpd delta m c).workerId = c.workerId ∧
    (adjustUpd delta m c).status = c.status ∧
    (adjustUpd delta m c).reportedCash = c.reportedCash ∧
    (adjustUpd delta m c).reportedBank = c.reportedBank ∧
    (adjustUpd delta m c).cashDiff = c.cashDiff ∧
    (adjustUpd delta m c).bankDiff = c.bankDiff ∧
    (adjustUpd delta m c).reportedAt = c.reportedAt := by
  by_cases hm : m = some DealPaymentMethod.BANK <;> simp [adjustUpd, hm]

/-- `closeShiftUpd` closes the row, keeps its identity and balances, and
leaves the reconciliation fields alone when no amount was reported. -/
lemma closeShiftUpd_frame (rc rb : Option ℚ) (now : Nat) (c : Shift) :
    (closeShiftUpd rc rb now c).id = c.id ∧
    (closeShiftUpd rc rb now c).workerId = c.workerId ∧
    (closeShiftUpd rc rb now c).status = ShiftStatus.CLOSED ∧
    (closeShiftUpd rc rb now c).closedAt = some now ∧
    (closeShiftUpd rc rb now c).currentBalanceCash = c.currentBalanceCash ∧
    (closeShiftUpd rc rb now c).currentBalanceBank = c.currentBalanceBank := by
  by_cases hb : rc.isSome || rb.isSome <;> simp [closeShiftUpd, hb]

/-- `closeShiftUpd` with neither amount reported does not write the
reconciliation fields. -/
lemma closeShiftUpd_none (now : Nat) (c : Shift) :
    (closeShiftUpd none none now c).reportedCash = c.reportedCash ∧
    (closeShiftUpd none none now c).reportedBank = c.reportedBank ∧
    (closeShiftUpd none none now c).cashDiff = c.cashDiff ∧
    (closeShiftUpd none none now c).bankDiff = c.bankDiff ∧
    (closeShiftUpd none none now c).reportedAt = c.reportedAt := by
  simp [closeShiftUpd]

/-- `closeShiftUpd` with both amounts reported performs the
reconciliation arithmetic `diff = expected − reported`. -/
lemma closeShiftUpd_both (X Y : ℚ) (now : Nat) (c : Shift) :
    (closeShiftUpd (some X) (some Y) now c).reportedCash = some X ∧
    (closeShiftUpd (some X) (some Y) now c).reportedBank = some Y ∧
    (closeShiftUpd (some X) (some Y) now c).cashDiff =
      some (c.currentBalanceCash - X) ∧
    (closeShiftUpd (some X) (some Y) now c).bankDiff =
      some (c.currentBalanceBank - Y) ∧
    (closeShiftUpd (some X) (some Y) now c).reportedAt = some now := by
  simp [closeShiftUpd]

/-- Inversion on a successful `create_deal`: the open shift existed, the
new Deal and `DEAL_ISSUED` ledger row are appended, and only the found
balance fields of that shift change, by exactly the deal amount on the chosen
method. -/
lemma create_deal_ok_inv {worker : User} {cn cp : Option String} {amt : ℚ}
    {pm : Option DealPaymentMethod} {cm : Option String} {dt : DealType}
    {idata : Option InstallmentData} {now : Nat} {s : DBState} {ret : Deal}
    {s2 : DBState}
    (h : create_deal worker cn cp amt pm cm dt idata now s = .ok (ret, s2)) :
    amt ≠ 0 ∧
    ∃ sh, get_active_shift worker.id s = some sh ∧
      ret.totalAmount = amt ∧
      ret.paymentMethod = pm.getD DealPaymentMethod.CASH ∧
      s2.deals = s.deals ++ [ret] ∧
      s2.txs = s.txs ++
        [{ workerId := worker.id, shiftId := sh.id, dealId := some ret.id,
           type := CashTransactionType.DEAL_ISSUED, amountDelta := amt }] ∧
      s2.users = s.users ∧
      (∀ x ∈ s2.shifts, x.id ≠ sh.id → x ∈ s.shifts) ∧
      (∀ x ∈ s2.shifts, x.id = sh.id →
        x.workerId = sh.workerId ∧ x.status = sh.status ∧
        (pm.getD DealPaymentMethod.CASH = DealPaymentMethod.CASH →
          x.currentBalanceCash = sh.currentBalanceCash + amt ∧
          x.currentBalanceBank = sh.currentBalanceBank) ∧
        (pm.getD DealPaymentMethod.CASH = DealPaymentMethod.BANK →
          x.currentBalanceBank = sh.currentBalanceBank + amt ∧
          x.currentBalanceCash = sh.currentBalanceCash) ∧
        x.currentBalance = x.currentBalanceCash + x.currentBalanceBank) := by
  simp only [create_deal] at h
  by_cases h0 : amt = 0
  · rw [if_pos h0] at h
    exact Except.noConfusion h
  rw [if_neg h0] at h
  cases hga : get_active_shift worker.id s with
  | none =>
      rw [hga] at h
      exact Except.noConfusion h
  | some sh =>
      rw [hga] at h
      simp only [] at h
      by_cases hbal : amt < 0 ∧
        (if pm.getD DealPaymentMethod.CASH = DealPaymentMethod.CASH then
          sh.currentBalanceCash else sh.currentBalanceBank) + amt < 0
      · rw [if_pos hbal] at h
        exact Except.noConfusion h
      rw [if_neg hbal] at h
      rw [Except.ok.injEq, Prod.mk.injEq] at h
      obtain ⟨hret, hs2⟩ := h
      refine ⟨h0, sh, rfl, ?_, ?_, ?_, ?_, ?_, ?_, ?_⟩
      · cases dt <;> cases idata <;> simp [← hret]
      · cases dt <;> cases idata <;> simp [← hret]
      · rw [← hs2, ← hret]
      · rw [← hs2, ← hret]
      · rw [← hs2]
      · rw [← hs2]
        intro x hx hxid
        simp only [List.mem_map] at hx
        obtain ⟨c, hc, hcx⟩ := hx
        by_cases hcid : c.id = sh.id
        · rw [if_pos hcid] at hcx
          subst hcx
          exact absurd (dealShiftUpd_frame _ _ sh).1 hxid
        · rw [if_neg hcid] at hcx
          subst hcx
          exact hc
      · rw [← hs2]
        intro x hx hxid
        simp only [List.mem_map] at hx
        obtain ⟨c, hc, hcx⟩ := hx
        by_cases hcid : c.id = sh.id
        · rw [if_pos hcid] at hcx
          subst hcx
          obtain ⟨-, hw, hst, -, -, -, -, -⟩ :=
            dealShiftUpd_frame amt (pm.getD DealPaymentMethod.CASH) sh
          obtain ⟨hbc, hbb, hcomb⟩ :=
            dealShiftUpd_balances amt (pm.getD DealPaymentMethod.CASH) sh
          exact ⟨hw, hst, hbc, hbb, hcomb⟩
        · rw [if_neg hcid] at hcx
          subst hcx
          exact absurd hxid hcid

/-- With an open shift, a nonzero amount and the debit bound satisfied,
`create_deal` succeeds. -/
lemma create_deal_succeeds (worker : User) (cn cp : Option String) (amt : ℚ)
    (pm : Option DealPaymentMethod) (cm : Option String) (dt : DealType)
    (idata : Option InstallmentData) (now : Nat) (s : DBState) {sh : Shift}
    (hsh : get_active_shift worker.id s = some sh) (h0 : amt ≠ 0)
    (hok : ¬(amt < 0 ∧
      (if pm.getD DealPaymentMethod.CASH = DealPaymentMethod.CASH then
        sh.currentBalanceCash else sh.currentBalanceBank) + amt < 0)) :
    ∃ ret s2, create_deal worker cn cp amt pm cm dt idata now s = .ok (ret, s2) := by
  cases hres : create_deal worker cn cp amt pm cm dt idata now s with
  | ok p => exact ⟨p.1, p.2, rfl⟩
  | error e =>
      exfalso
      simp only [create_deal] at hres
      rw [if_neg h0, hsh] at hres
      simp only [] at hres
      rw [if_neg hok] at hres
      exact Except.noConfusion hres

/-- A debit below the balance of the chosen method makes `create_deal` raise
the insufficient-limit ValidationError. -/
lemma create_deal_insufficient (worker : User) (cn cp : Option String) (amt : ℚ)
    (pm : Option DealPaymentMethod) (cm : Option String) (dt : DealType)
    (idata : Option InstallmentData) (now : Nat) (s : DBState) {sh : Shift}
    (hsh : get_active_shift worker.id s = some sh) (hd : amt < 0)
    (hlt : (if pm.getD DealPaymentMethod.CASH = DealPaymentMethod.CASH then
      sh.currentBalanceCash else sh.currentBalanceBank) + amt < 0) :
    create_deal worker cn cp amt pm cm dt idata now s =
      .error (.validation "Недостаточно лимита для списания.") := by
  simp only [create_deal]
  rw [if_neg (ne_of_lt hd), hsh]
  simp only []
  rw [if_pos ⟨hd, hlt⟩]

/-- C2: with an open shift, a debit `d < 0` succeeds iff the chosen
balance of the chosen method plus `d` stays ≥ 0; otherwise `create_deal` raises the
insufficient-limit ValidationError and — the transaction rolling back —
the state is unchanged; a credit `c > 0` is never rejected. -/
theorem claim_C2 (worker : User) (d : ℚ) (pm : DealPaymentMethod)
    (cn cp cm : Option String) (dt : DealType) (idata : Option InstallmentData)
    (now : Nat) (s : DBState) (sh : Shift)
    (hsh : get_active_shift worker.id s = some sh) (hd : d < 0) :
    ((∃ ret s2, create_deal worker cn cp d (some pm) cm dt idata now s =
        .ok (ret, s2)) ↔
      0 ≤ (if pm = DealPaymentMethod.CASH then sh.currentBalanceCash
           else sh.currentBalanceBank) + d) ∧
    ((if pm = DealPaymentMethod.CASH then sh.currentBalanceCash
      else sh.currentBalanceBank) + d < 0 →
      create_deal worker cn cp d (some pm) cm dt idata now s =
        .error (.validation "Недостаточно лимита для списания.") ∧
      applyOp (Op.createDeal worker cn cp d (some pm) cm dt idata now) s = s) ∧
    (∀ c : ℚ, 0 < c →
      ∃ ret s2, create_deal worker cn cp c (some pm) cm dt idata now s =
        .ok (ret, s2)) := by
  have hg : (some pm).getD DealPaymentMethod.CASH = pm := rfl
  refine ⟨⟨?_, ?_⟩, ?_, ?_⟩
  · rintro ⟨ret, s2, hok⟩
    by_contra hlt
    push_neg at hlt
    rw [create_deal_insufficient worker cn cp d (some pm) cm dt idata now s hsh
      hd (by rw [hg]; exact hlt)] at hok
    exact Except.noConfusion hok
  · intro hge
    exact create_deal_succeeds worker cn cp d (some pm) cm dt idata now s hsh
      (ne_of_lt hd) (by rw [hg]; rintro ⟨_, hlt⟩; linarith)
  · intro hlt
    have herr := create_deal_insufficient worker cn cp d (some pm) cm dt idata
      now s hsh hd (by rw [hg]; exact hlt)
    exact ⟨herr, by simp [applyOp, herr]⟩
  · intro c hc
    exact create_deal_succeeds worker cn cp c (some pm) cm dt idata now s hsh
      (ne_of_gt hc) (by rintro ⟨hneg, _⟩; linarith)

/-- Witness for C2: on `exampleState1` (cash balance 100) a cash debit of
−200 is rejected without touching the state, and the success criterion
matches the balance bound. -/
theorem claim_C2_witness :
    ((∃ ret s2, create_deal worker1 none none (-200)
        (some DealPaymentMethod.CASH) none DealType.OPERATION none 5
        exampleState1 = .ok (ret, s2)) ↔
      0 ≤ (if DealPaymentMethod.CASH = DealPaymentMethod.CASH then
        exampleShift1.currentBalanceCash
        else exampleShift1.currentBalanceBank) + (-200)) ∧
    ((if DealPaymentMethod.CASH = DealPaymentMethod.CASH then
        exampleShift1.currentBalanceCash
        else exampleShift1.currentBalanceBank) + (-200) < 0 →
      create_deal worker1 none none (-200) (some DealPaymentMethod.CASH) none
        DealType.OPERATION none 5 exampleState1 =
        .error (.validation "Недостаточно лимита для списания.") ∧
      applyOp (Op.createDeal worker1 none none (-200)
        (some DealPaymentMethod.CASH) none DealType.OPERATION none 5)
        exampleState1 = exampleState1) ∧
    (∀ c : ℚ, 0 < c →
      ∃ ret s2, create_deal worker1 none none c (some DealPaymentMethod.CASH)
        none DealType.OPERATION none 5 exampleState1 = .ok (ret, s2)) :=
  claim_C2 worker1 (-200) DealPaymentMethod.CASH none none none
    DealType.OPERATION none 5 exampleState1 exampleShift1
    (by simp [get_active_shift, exampleState1, worker1, exampleShift1])
    (by norm_num)

/-- C3: when `create_deal` succeeds, the balance of the chosen method on the
open shift grows by exactly the deal amount (the other method untouched),
the combined balance is cash + bank, and exactly one `DEAL_ISSUED`
CashTransaction with `amount_delta = amount` is appended. -/
theorem claim_C3 (worker : User) (amount : ℚ) (pm : Option DealPaymentMethod)
    (cn cp cm : Option String) (dt : DealType) (idata : Option InstallmentData)
    (now : Nat) (s : DBState) (sh : Shift) (ret : Deal) (s2 : DBState)
    (hsh : get_active_shift worker.id s = some sh)
    (h : create_deal worker cn cp amount pm cm dt idata now s = .ok (ret, s2)) :
    (∀ x ∈ s2.shifts, x.id = sh.id →
      (pm.getD DealPaymentMethod.CASH = DealPaymentMethod.CASH →
        x.currentBalanceCash = sh.currentBalanceCash + amount ∧
        x.currentBalanceBank = sh.currentBalanceBank) ∧
      (pm.getD DealPaymentMethod.CASH = DealPaymentMethod.BANK →
        x.currentBalanceBank = sh.currentBalanceBank + amount ∧
        x.currentBalanceCash = sh.currentBalanceCash) ∧
      x.currentBalance = x.currentBalanceCash + x.currentBalanceBank) ∧
    ret.totalAmount = amount ∧
    s2.txs = s.txs ++
      [{ workerId := worker.id, shiftId := sh.id, dealId := some ret.id,
         type := CashTransactionType.DEAL_ISSUED, amountDelta := amount }] := by
  obtain ⟨-, sh', hsh', hamt, -, -, htxs, -, -, hbal⟩ := create_deal_ok_inv h
  rw [hsh] at hsh'
  obtain rfl : sh' = sh := by injection hsh'.symm
  exact ⟨fun x hx hid => (hbal x hx hid).2.2, hamt, htxs⟩

/-- Witness for C3: a +50 cash deal on `exampleState1`. -/
theorem claim_C3_witness :
    ∃ ret s2, create_deal worker1 none none 50 (some DealPaymentMethod.CASH)
        none DealType.OPERATION none 5 exampleState1 = .ok (ret, s2) ∧
      ((∀ x ∈ s2.shifts, x.id = exampleShift1.id →
        ((some DealPaymentMethod.CASH).getD DealPaymentMethod.CASH =
            DealPaymentMethod.CASH →
          x.currentBalanceCash = exampleShift1.currentBalanceCash + 50 ∧
          x.currentBalanceBank = exampleShift1.currentBalanceBank) ∧
        ((some DealPaymentMethod.CASH).getD DealPaymentMethod.CASH =
            DealPaymentMethod.BANK →
          x.currentBalanceBank = exampleShift1.currentBalanceBank + 50 ∧
          x.currentBalanceCash = exampleShift1.currentBalanceCash) ∧
        x.currentBalance = x.currentBalanceCash + x.currentBalanceBank) ∧
      ret.totalAmount = 50 ∧
      s2.txs = exampleState1.txs ++
        [{ workerId := worker1.id, shiftId := exampleShift1.id,
           dealId := some ret.id, type := CashTransactionType.DEAL_ISSUED,
           amountDelta := 50 }]) := by
  have hsh : get_active_shift worker1.id exampleState1 = some exampleShift1 := by
    simp [get_active_shift, exampleState1, worker1, exampleShift1]
  obtain ⟨ret, s2, h⟩ := create_deal_succeeds worker1 none none 50
    (some DealPaymentMethod.CASH) none DealType.OPERATION none 5 exampleState1
    hsh (by norm_num) (by rintro ⟨h, -⟩; norm_num at h)
  exact ⟨ret, s2, h,
    claim_C3 worker1 50 (some DealPaymentMethod.CASH) none none none
      DealType.OPERATION none 5 exampleState1 exampleShift1 ret s2 hsh h⟩

/-- A list with at most one element satisfying `p` cannot hold two
different such elements. -/
lemma eq_of_countP_le_one {α : Type} {p : α → Bool} :
    ∀ {l : List α}, l.countP p ≤ 1 → ∀ {a b : α}, a ∈ l → b ∈ l →
      p a = true → p b = true → a = b := by
  intro l
  induction l with
  | nil =>
      intro _ a b ha
      cases ha
  | cons x xs ih =>
      intro hc a b ha hb hpa hpb
      rw [List.countP_cons] at hc
      rcases List.mem_cons.mp ha with rfl | ha' <;>
        rcases List.mem_cons.mp hb with rfl | hb'
      · rfl
      · exfalso
        have h1 : (if p a = true then 1 else 0) = 1 := by simp [hpa]
        rw [h1] at hc
        have hz : xs.countP p = 0 := by omega
        exact (List.countP_eq_zero.mp hz b hb') hpb
      · exfalso
        have h1 : (if p b = true then 1 else 0) = 1 := by simp [hpb]
        rw [h1] at hc
        have hz : xs.countP p = 0 := by omega
        exact (List.countP_eq_zero.mp hz a ha') hpa
      · exact ih (le_trans (Nat.le_add_right _ _) hc) ha' hb' hpa hpb

/-- `get_active_shift` returning `none` is the same as the worker having
zero open shifts. -/
lemma get_active_shift_eq_none_iff {w : Nat} {s : DBState} :
    get_active_shift w s = none ↔ countOpenFor w s = 0 := by
  simp [get_active_shift, countOpenFor, List.find?_eq_none, List.countP_eq_zero]

/-- The shift `get_active_shift` finds is an open shift of the worker in
the table. -/
lemma get_active_shift_mem {w : Nat} {s : DBState} {sh : Shift}
    (h : get_active_shift w s = some sh) :
    sh ∈ s.shifts ∧ sh.workerId = w ∧ sh.status = ShiftStatus.OPEN := by
  have h1 := List.mem_of_find?_eq_some h
  have h2 := List.find?_some h
  simp only [Bool.and_eq_true, beq_iff_eq] at h2
  exact ⟨h1, h2.1, h2.2⟩

/-- `Invariant` only looks at the shift table and its sequence counter. -/
lemma invariant_congr {s s2 : DBState} (inv : Invariant s)
    (hshifts : s2.shifts = s.shifts) (hnext : s2.nextShiftId = s.nextShiftId) :
    Invariant s2 := by
  refine ⟨?_, ?_, ?_, ?_⟩
  · intro w
    rw [countOpenFor, hshifts]
    exact inv.openCount w
  · intro sh hsh
    rw [hshifts] at hsh
    rw [hnext]
    exact inv.shiftIdLt sh hsh
  · intro a ha b hb
    rw [hshifts] at ha hb
    exact inv.shiftIdInj a ha b hb
  · intro sh hsh
    rw [hshifts] at hsh
    exact inv.openClean sh hsh

/-- `Invariant` is preserved by any rewrite of the shift table that keeps
row ids and owners, closes rather than opens, and does not touch the
reconciliation fields of rows that stay open. -/
lemma invariant_of_map {s s2 : DBState} {f : Shift → Shift} (inv : Invariant s)
    (hshifts : s2.shifts = s.shifts.map f)
    (hnext : s2.nextShiftId = s.nextShiftId)
    (hid : ∀ c ∈ s.shifts, (f c).id = c.id)
    (hw : ∀ c ∈ s.shifts, (f c).workerId = c.workerId)
    (hst : ∀ c ∈ s.shifts, (f c).status = ShiftStatus.OPEN →
      c.status = ShiftStatus.OPEN)
    (hrec : ∀ c ∈ s.shifts, (f c).status = ShiftStatus.OPEN →
      (f c).reportedCash = c.reportedCash ∧ (f c).reportedBank = c.reportedBank ∧
      (f c).cashDiff = c.cashDiff ∧ (f c).bankDiff = c.bankDiff ∧
      (f c).reportedAt = c.reportedAt) :
    Invariant s2 := by
  refine ⟨?_, ?_, ?_, ?_⟩
  · intro w
    rw [countOpenFor, hshifts, List.countP_map]
    refine le_trans (List.countP_mono_left ?_) (inv.openCount w)
    intro x hx hpx
    simp only [Function.comp, Bool.and_eq_true, beq_iff_eq] at hpx ⊢
    exact ⟨(hw x hx).symm.trans hpx.1, hst x hx hpx.2⟩
  · intro sh hsh
    rw [hshifts] at hsh
    obtain ⟨c, hc, rfl⟩ := List.mem_map.mp hsh
    rw [hnext, hid c hc]
    exact inv.shiftIdLt c hc
  · intro a ha b hb hab
    rw [hshifts] at ha hb
    obtain ⟨c, hc, rfl⟩ := List.mem_map.mp ha
    obtain ⟨d, hd, rfl⟩ := List.mem_map.mp hb
    rw [hid c hc, hid d hd] at hab
    rw [inv.shiftIdInj c hc d hd hab]
  · intro sh hsh hopen
    rw [hshifts] at hsh
    obtain ⟨c, hc, rfl⟩ := List.mem_map.mp hsh
    obtain ⟨h1, h2, h3, h4, h5⟩ := hrec c hc hopen
    obtain ⟨g1, g2, g3, g4, g5⟩ := inv.openClean c hc (hst c hc hopen)
    exact ⟨h1.trans g1, h2.trans g2, h3.trans g3, h4.trans g4, h5.trans g5⟩

/-- Inversion on a successful `open_shift`: no open shift existed, and the
new row carries the opening data with a fresh id. -/
lemma open_shift_ok_shape {worker : User} {cash bank : ℚ} {s : DBState}
    {ret : Shift} {s2 : DBState}
    (h : open_shift worker cash bank s = .ok (ret, s2)) :
    get_active_shift worker.id s = none ∧
    ret.id = s.nextShiftId ∧ ret.workerId = worker.id ∧
    ret.status = ShiftStatus.OPEN ∧
    ret.currentBalanceCash = cash ∧ ret.currentBalanceBank = bank ∧
    ret.reportedCash = none ∧ ret.reportedBank = none ∧ ret.cashDiff = none ∧
    ret.bankDiff = none ∧ ret.reportedAt = none ∧
    s2.shifts = s.shifts ++ [ret] ∧ s2.nextShiftId = s.nextShiftId + 1 ∧
    s2.deals = s.deals ∧ s2.users = s.users := by
  simp only [open_shift] at h
  by_cases h1 : cash < 0 ∨ bank < 0
  · rw [if_pos h1] at h
    exact Except.noConfusion h
  rw [if_neg h1] at h
  by_cases h2 : cash = 0 ∧ bank = 0
  · rw [if_pos h2] at h
    exact Except.noConfusion h
  rw [if_neg h2] at h
  cases hga : get_active_shift worker.id s with
  | some _ =>
      rw [hga] at h
      exact Except.noConfusion h
  | none =>
      rw [hga] at h
      simp only [] at h
      rw [Except.ok.injEq, Prod.mk.injEq] at h
      obtain ⟨hret, hs2⟩ := h
      subst hret
      refine ⟨rfl, rfl, rfl, rfl, rfl, rfl, rfl, rfl, rfl, rfl, rfl, ?_, ?_, ?_, ?_⟩ <;>
        rw [← hs2]

/-- Inversion on a successful `close_shift`: the open shift existed and its
row was rewritten with `closeShiftUpd`; nothing else changed. -/
lemma close_shift_ok_shape {worker : User} {rc rb : Option ℚ} {now : Nat}
    {s : DBState} {ret : Shift} {s2 : DBState}
    (h : close_shift worker rc rb now s = .ok (ret, s2)) :
    ∃ sh, get_active_shift worker.id s = some sh ∧
      ret = closeShiftUpd rc rb now sh ∧
      s2.shifts = s.shifts.map (fun c =>
        if c.id = sh.id then closeShiftUpd rc rb now c else c) ∧
      s2.users = s.users ∧ s2.deals = s.deals ∧ s2.txs = s.txs ∧
      s2.nextShiftId = s.nextShiftId ∧ s2.nextDealId = s.nextDealId := by
  simp only [close_shift] at h
  cases hga : get_active_shift worker.id s with
  | none =>
      rw [hga] at h
      exact Except.noConfusion h
  | some sh =>
      rw [hga] at h
      simp only [] at h
      rw [Except.ok.injEq, Prod.mk.injEq] at h
      obtain ⟨hret, hs2⟩ := h
      refine ⟨sh, rfl, hret.symm, ?_, ?_, ?_, ?_, ?_, ?_⟩ <;> rw [← hs2]

/-- Inversion on a successful `adjust_balance`: the open shift existed and
its row was rewritten with `adjustUpd`; the ledger got one `ADJUSTMENT`. -/
lemma adjust_balance_ok_shape {worker : User} {delta : ℚ}
    {m : Option DealPaymentMethod} {cb : Option Nat} {s : DBState}
    {ret : Shift} {s2 : DBState}
    (h : adjust_balance worker delta m cb s = .ok (ret, s2)) :
    ∃ sh, get_active_shift worker.id s = some sh ∧
      ret = adjustUpd delta m sh ∧
      s2.shifts = s.shifts.map (fun c =>
        if c.id = sh.id then adjustUpd delta m c else c) ∧
      s2.users = s.users ∧ s2.deals = s.deals ∧
      s2.txs = s.txs ++
        [{ workerId := worker.id, shiftId := sh.id, createdBy := cb,
           type := CashTransactionType.ADJUSTMENT, amountDelta := delta }] ∧
      s2.nextShiftId = s.nextShiftId ∧ s2.nextDealId = s.nextDealId := by
  simp only [adjust_balance] at h
  cases hga : get_active_shift worker.id s with
  | none =>
      rw [hga] at h
      exact Except.noConfusion h
  | some sh =>
      rw [hga] at h
      simp only [] at h
      rw [Except.ok.injEq, Prod.mk.injEq] at h
      obtain ⟨hret, hs2⟩ := h
      refine ⟨sh, rfl, hret.symm, ?_, ?_, ?_, ?_, ?_, ?_⟩ <;> rw [← hs2]

/-- Inversion on a successful `create_deal`, shift-table view: the open
row of that shift was rewritten with `dealShiftUpd` applied to the queried row. -/
lemma create_deal_state_shape {worker : User} {cn cp : Option String} {amt : ℚ}
    {pm : Option DealPaymentMethod} {cm : Option String} {dt : DealType}
    {idata : Option InstallmentData} {now : Nat} {s : DBState} {ret : Deal}
    {s2 : DBState}
    (h : create_deal worker cn cp amt pm cm dt idata now s = .ok (ret, s2)) :
    ∃ sh, get_active_shift worker.id s = some sh ∧
      s2.shifts = s.shifts.map (fun c =>
        if c.id = sh.id then dealShiftUpd amt (pm.getD DealPaymentMethod.CASH) sh
        else c) ∧
      s2.nextShiftId = s.nextShiftId := by
  simp only [create_deal] at h
  by_cases h0 : amt = 0
  · rw [if_pos h0] at h
    exact Except.noConfusion h
  rw [if_neg h0] at h
  cases hga : get_active_shift worker.id s with
  | none =>
      rw [hga] at h
      exact Except.noConfusion h
  | some sh =>
      rw [hga] at h
      simp only [] at h
      by_cases hbal : amt < 0 ∧
        (if pm.getD DealPaymentMethod.CASH = DealPaymentMethod.CASH then
          sh.currentBalanceCash else sh.currentBalanceBank) + amt < 0
      · rw [if_pos hbal] at h
        exact Except.noConfusion h
      rw [if_neg hbal] at h
      rw [Except.ok.injEq, Prod.mk.injEq] at h
      obtain ⟨hret, hs2⟩ := h
      refine ⟨sh, rfl, ?_, ?_⟩ <;> rw [← hs2]

/-- Inversion on a successful `soft_delete_deal`: the caller was admin, the
deal existed, only its `is_deleted` flag changed, and every other table is
untouched. -/
lemma soft_delete_deal_ok_shape {admin : User} {dealId : Nat} {s : DBState}
    {ret : Deal} {s2 : DBState}
    (h : soft_delete_deal admin dealId s = .ok (ret, s2)) :
    admin.role = UserRole.ADMIN ∧
    ∃ d, s.deals.find? (fun x => x.id == dealId) = some d ∧
      ret = { d with isDeleted := true } ∧
      s2.users = s.users ∧ s2.shifts = s.shifts ∧ s2.txs = s.txs ∧
      s2.deals = s.deals.map (fun x =>
        if x.id = dealId then { x with isDeleted := true } else x) ∧
      s2.nextShiftId = s.nextShiftId ∧ s2.nextDealId = s.nextDealId := by
  simp only [soft_delete_deal] at h
  by_cases hrole : admin.role ≠ UserRole.ADMIN
  · rw [if_pos hrole] at h
    exact Except.noConfusion h
  rw [if_neg hrole] at h
  push_neg at hrole
  cases hd : s.deals.find? (fun x => x.id == dealId) with
  | none =>
      rw [hd] at h
      exact Except.noConfusion h
  | some d =>
      rw [hd] at h
      simp only [] at h
      rw [Except.ok.injEq, Prod.mk.injEq] at h
      obtain ⟨hret, hs2⟩ := h
      refine ⟨hrole, d, rfl, hret.symm, ?_, ?_, ?_, ?_, ?_, ?_⟩ <;> rw [← hs2]

/-- A successful `adjust_worker_balance` is a successful `adjust_balance`
for the resolved worker. -/
lemma adjust_worker_balance_ok_inv {admin : User} {phone : String} {delta : ℚ}
    {m : Option DealPaymentMethod} {s : DBState} {p : Shift × DBState}
    (h : adjust_worker_balance admin phone delta m s = .ok p) :
    ∃ w, adjust_balance w delta (some (m.getD DealPaymentMethod.CASH))
      (some admin.id) s = .ok p := by
  simp only [adjust_worker_balance] at h
  by_cases hrole : admin.role ≠ UserRole.ADMIN
  · rw [if_pos hrole] at h
    exact Except.noConfusion h
  rw [if_neg hrole] at h
  cases hu : get_active_user_by_phone phone s with
  | none =>
      rw [hu] at h
      exact Except.noConfusion h
  | some w =>
      rw [hu] at h
      exact ⟨w, h⟩

/-- The empty database satisfies the invariants. -/
lemma invariant_init : Invariant initState := by
  refine ⟨?_, ?_, ?_, ?_⟩ <;> intro w <;> simp [countOpenFor, initState]

/-- Every service call preserves the invariants. -/
lemma invariant_step (op : Op) (s : DBState) (inv : Invariant s) :
    Invariant (applyOp op s) := by
  cases op with
  | openShift worker c b =>
      simp only [applyOp]
      cases hres : open_shift worker c b s with
      | error e => exact inv
      | ok p =>
          obtain ⟨ret, s2⟩ := p
          obtain ⟨hga, hid, hwid, hst, -, -, hrc, hrb, hcd, hbd, hra,
            hshifts, hnext, -, -⟩ := open_shift_ok_shape hres
          refine ⟨?_, ?_, ?_, ?_⟩
          · intro w
            rw [countOpenFor, hshifts, List.countP_append]
            by_cases hw : w = worker.id
            · subst hw
              have hz := get_active_shift_eq_none_iff.mp hga
              rw [countOpenFor] at hz
              rw [hz]
              simp only [List.countP_cons, List.countP_nil]
              split <;> omega
            · have hfalse : (ret.workerId == w && ret.status == ShiftStatus.OPEN)
                  = false := by
                simp only [Bool.and_eq_false_iff, beq_eq_false_iff_ne]
                exact Or.inl (by rw [hwid]; exact fun hh => hw hh.symm)
              have h1 : List.countP
                  (fun sh => sh.workerId == w && sh.status == ShiftStatus.OPEN)
                  [ret] = 0 := by
                simp [List.countP_cons, hfalse]
              rw [h1]
              have := inv.openCount w
              rw [countOpenFor] at this
              omega
          · intro sh hsh
            rw [hshifts] at hsh
            rw [hnext]
            rcases List.mem_append.mp hsh with hmem | hretm
            · have := inv.shiftIdLt sh hmem
              omega
            · rw [List.mem_singleton.mp hretm, hid]
              omega
          · intro a ha b hb hab
            rw [hshifts] at ha hb
            rcases List.mem_append.mp ha with hma | hra2 <;>
              rcases List.mem_append.mp hb with hmb | hrb2
            · exact inv.shiftIdInj a hma b hmb hab
            · exfalso
              rw [List.mem_singleton.mp hrb2, hid] at hab
              have := inv.shiftIdLt a hma
              omega
            · exfalso
              rw [List.mem_singleton.mp hra2, hid] at hab
              have := inv.shiftIdLt b hmb
              omega
            · rw [List.mem_singleton.mp hra2, List.mem_singleton.mp hrb2]
          · intro sh hsh hopen
            rw [hshifts] at hsh
            rcases List.mem_append.mp hsh with hmem | hretm
            · exact inv.openClean sh hmem hopen
            · rw [List.mem_singleton.mp hretm] at hopen ⊢
              exact ⟨hrc, hrb, hcd, hbd, hra⟩
  | closeShift worker rc rb now =>
      simp only [applyOp]
      cases hres : close_shift worker rc rb now s with
      | error e => exact inv
      | ok p =>
          obtain ⟨ret, s2⟩ := p
          obtain ⟨sh, hga, -, hshifts, -, -, -, hnext, -⟩ :=
            close_shift_ok_shape hres
          refine invariant_of_map inv hshifts hnext ?_ ?_ ?_ ?_
          · intro x hx
            by_cases hxid : x.id = sh.id
            · rw [if_pos hxid, (closeShiftUpd_frame rc rb now x).1]
            · rw [if_neg hxid]
          · intro x hx
            by_cases hxid : x.id = sh.id
            · rw [if_pos hxid, (closeShiftUpd_frame rc rb now x).2.1]
            · rw [if_neg hxid]
          · intro x hx
            by_cases hxid : x.id = sh.id
            · rw [if_pos hxid, (closeShiftUpd_frame rc rb now x).2.2.1]
              exact fun hopen => absurd hopen (by simp)
            · rw [if_neg hxid]
              exact fun hopen => hopen
          · intro x hx
            by_cases hxid : x.id = sh.id
            · rw [if_pos hxid, (closeShiftUpd_frame rc rb now x).2.2.1]
              exact fun hopen => absurd hopen (by simp)
            · rw [if_neg hxid]
              exact fun _ => ⟨rfl, rfl, rfl, rfl, rfl⟩
  | createDeal worker cn cp amt pm cm dt idata now =>
      simp only [applyOp]
      cases hres : create_deal worker cn cp amt pm cm dt idata now s with
      | error e => exact inv
      | ok p =>
          obtain ⟨ret, s2⟩ := p
          obtain ⟨sh, hga, hshifts, hnext⟩ := create_deal_state_shape hres
          have hshmem := (get_active_shift_mem hga).1
          have hceq : ∀ c ∈ s.shifts, c.id = sh.id → c = sh := fun c hc hcid =>
            inv.shiftIdInj c hc sh hshmem hcid
          refine invariant_of_map inv hshifts hnext ?_ ?_ ?_ ?_
          · intro x hx
            by_cases hxid : x.id = sh.id
            · rw [if_pos hxid, (dealShiftUpd_frame _ _ sh).1, hxid]
            · rw [if_neg hxid]
          · intro x hx
            by_cases hxid : x.id = sh.id
            · rw [if_pos hxid, (dealShiftUpd_frame _ _ sh).2.1,
                hceq x hx hxid]
            · rw [if_neg hxid]
          · intro x hx
            by_cases hxid : x.id = sh.id
            · rw [if_pos hxid, (dealShiftUpd_frame _ _ sh).2.2.1,
                hceq x hx hxid]
              exact fun hopen => hopen
            · rw [if_neg hxid]
              exact fun hopen => hopen
          · intro x hx
            by_cases hxid : x.id = sh.id
            · obtain ⟨-, -, -, h4, h5, h6, h7, h8⟩ := dealShiftUpd_frame amt
                (pm.getD DealPaymentMethod.CASH) sh
              rw [if_pos hxid, hceq x hx hxid]
              exact fun _ => ⟨h4, h5, h6, h7, h8⟩
            · rw [if_neg hxid]
              exact fun _ => ⟨rfl, rfl, rfl, rfl, rfl⟩
  | adjustBalance worker delta m cb =>
      simp only [applyOp]
      cases hres : adjust_balance worker delta m cb s with
      | error e => exact inv
      | ok p =>
          obtain ⟨ret, s2⟩ := p
          obtain ⟨sh, hga, -, hshifts, -, -, -, hnext, -⟩ :=
            adjust_balance_ok_shape hres
          refine invariant_of_map inv hshifts hnext ?_ ?_ ?_ ?_
          · intro x hx
            by_cases hxid : x.id = sh.id
            · rw [if_pos hxid, (adjustUpd_frame delta m x).1]
            · rw [if_neg hxid]
          · intro x hx
            by_cases hxid : x.id = sh.id
            · rw [if_pos hxid, (adjustUpd_frame delta m x).2.1]
            · rw [if_neg hxid]
          · intro x hx
            by_cases hxid : x.id = sh.id
            · rw [if_pos hxid, (adjustUpd_frame delta m x).2.2.1]
              exact fun hopen => hopen
            · rw [if_neg hxid]
              exact fun hopen => hopen
          · intro x hx
            by_cases hxid : x.id = sh.id
            · obtain ⟨-, -, -, h4, h5, h6, h7, h8⟩ := adjustUpd_frame delta m x
              rw [if_pos hxid]
              exact fun _ => ⟨h4, h5, h6, h7, h8⟩
            · rw [if_neg hxid]
              exact fun _ => ⟨rfl, rfl, rfl, rfl, rfl⟩
  | closeOpenShifts now =>
      simp only [applyOp, close_open_shifts]
      refine invariant_of_map inv rfl rfl ?_ ?_ ?_ ?_
      · intro x hx
        by_cases hxo : x.status == ShiftStatus.OPEN
        · rw [if_pos hxo]
        · rw [if_neg hxo]
      · intro x hx
        by_cases hxo : x.status == ShiftStatus.OPEN
        · rw [if_pos hxo]
        · rw [if_neg hxo]
      · intro x hx
        by_cases hxo : x.status == ShiftStatus.OPEN
        · rw [if_pos hxo]
          exact fun hopen => absurd hopen (by simp)
        · rw [if_neg hxo]
          exact fun hopen => hopen
      · intro x hx
        by_cases hxo : x.status == ShiftStatus.OPEN
        · rw [if_pos hxo]
          exact fun hopen => absurd hopen (by simp)
        · rw [if_neg hxo]
          exact fun _ => ⟨rfl, rfl, rfl, rfl, rfl⟩
  | softDeleteDeal a dealId =>
      simp only [applyOp]
      cases hres : soft_delete_deal a dealId s with
      | error e => exact inv
      | ok p =>
          obtain ⟨ret, s2⟩ := p
          obtain ⟨-, d, -, -, -, hshifts, -, -, hnext, -⟩ :=
            soft_delete_deal_ok_shape hres
          exact invariant_congr inv hshifts hnext
  | adjustWorkerBalance a phone delta m =>
      simp only [applyOp]
      cases hres : adjust_worker_balance a phone delta m s with
      | error e => exact inv
      | ok p =>
          obtain ⟨w, hres2⟩ := adjust_worker_balance_ok_inv hres
          obtain ⟨ret, s2⟩ := p
          obtain ⟨sh, hga, -, hshifts, -, -, -, hnext, -⟩ :=
            adjust_balance_ok_shape hres2
          refine invariant_of_map inv hshifts hnext ?_ ?_ ?_ ?_
          · intro x hx
            by_cases hxid : x.id = sh.id
            · rw [if_pos hxid, (adjustUpd_frame delta _ x).1]
            · rw [if_neg hxid]
          · intro x hx
            by_cases hxid : x.id = sh.id
            · rw [if_pos hxid, (adjustUpd_frame delta _ x).2.1]
            · rw [if_neg hxid]
          · intro x hx
            by_cases hxid : x.id = sh.id
            · rw [if_pos hxid, (adjustUpd_frame delta _ x).2.2.1]
              exact fun hopen => hopen
            · rw [if_neg hxid]
              exact fun hopen => hopen
          · intro x hx
            by_cases hxid : x.id = sh.id
            · obtain ⟨-, -, -, h4, h5, h6, h7, h8⟩ := adjustUpd_frame delta _ x
              rw [if_pos hxid]
              exact fun _ => ⟨h4, h5, h6, h7, h8⟩
            · rw [if_neg hxid]
              exact fun _ => ⟨rfl, rfl, rfl, rfl, rfl⟩

/-- Every reachable database state satisfies the invariants. -/
lemma reachable_invariant {s : DBState} (h : Reachable s) : Invariant s := by
  induction h with
  | init => exact invariant_init
  | step s op _ ih => exact invariant_step op s ih

/-- C4: on a reachable state with an open shift, `close_shift` with both
reported amounts sets `cash_diff = expected_cash − X` and
`bank_diff = expected_bank − Y` from the balances immediately before
closing and marks the shift closed; a second `close_shift` for the same
worker then fails with NoActiveShift. -/
theorem claim_C4 (worker : User) (X Y : ℚ) (t1 : Nat) (s : DBState) (sh : Shift)
    (hreach : Reachable s)
    (hsh : get_active_shift worker.id s = some sh) :
    ∃ ret s2, close_shift worker (some X) (some Y) t1 s = .ok (ret, s2) ∧
      ret.status = ShiftStatus.CLOSED ∧ ret.closedAt = some t1 ∧
      ret.reportedCash = some X ∧ ret.reportedBank = some Y ∧
      ret.cashDiff = some (sh.currentBalanceCash - X) ∧
      ret.bankDiff = some (sh.currentBalanceBank - Y) ∧
      (∀ x ∈ s2.shifts, x.id = sh.id →
        x.status = ShiftStatus.CLOSED ∧
        x.cashDiff = some (sh.currentBalanceCash - X) ∧
        x.bankDiff = some (sh.currentBalanceBank - Y)) ∧
      (∀ rc rb t2, close_shift worker rc rb t2 s2 =
        .error (.noActiveShift "Нет активной смены.")) := by
  have inv := reachable_invariant hreach
  obtain ⟨hmem, hwid, hstat⟩ := get_active_shift_mem hsh
  have heq : close_shift worker (some X) (some Y) t1 s = .ok
      (closeShiftUpd (some X) (some Y) t1 sh,
       { s with shifts := s.shifts.map (fun c =>
           if c.id = sh.id then closeShiftUpd (some X) (some Y) t1 c else c) }) := by
    rw [close_shift, hsh]
  obtain ⟨f1, f2, f3, f4, f5⟩ := closeShiftUpd_both X Y t1 sh
  obtain ⟨-, -, fs, fc, -, -⟩ := closeShiftUpd_frame (some X) (some Y) t1 sh
  refine ⟨_, _, heq, fs, fc, f1, f2, f3, f4, ?_, ?_⟩
  · intro x hx hxid
    simp only [List.mem_map] at hx
    obtain ⟨c, hc, rfl⟩ := hx
    by_cases hcid : c.id = sh.id
    · have hcsh : c = sh := inv.shiftIdInj c hc sh hmem hcid
      rw [if_pos hcid, hcsh]
      obtain ⟨g1, g2, g3, g4, g5⟩ := closeShiftUpd_both X Y t1 sh
      exact ⟨(closeShiftUpd_frame (some X) (some Y) t1 sh).2.2.1, g3, g4⟩
    · rw [if_neg hcid] at hxid ⊢
      exact absurd hxid hcid
  · intro rc rb t2
    have hnone2 : get_active_shift worker.id
        { s with shifts := s.shifts.map (fun c =>
            if c.id = sh.id then closeShiftUpd (some X) (some Y) t1 c else c) }
        = none := by
      rw [get_active_shift, List.find?_eq_none]
      intro x hx
      simp only [List.mem_map] at hx
      obtain ⟨c, hc, rfl⟩ := hx
      by_cases hcid : c.id = sh.id
      · rw [if_pos hcid]
        simp [(closeShiftUpd_frame (some X) (some Y) t1 c).2.2.1]
      · rw [if_neg hcid]
        intro hpc
        simp only [Bool.and_eq_true, beq_iff_eq] at hpc
        have hcsh : c = sh := by
          have hc1 := inv.openCount worker.id
          rw [countOpenFor] at hc1
          refine eq_of_countP_le_one hc1 hc hmem ?_ ?_ <;>
            simp [hwid, hstat, hpc.1, hpc.2]
        exact hcid (by rw [hcsh])
    rw [close_shift, hnone2]

/-- Witness for C4: closing the shift of `exampleState1` reporting cash 90 and
bank 0 yields `cash_diff = 10`, `bank_diff = 0`, and a second close fails. -/
theorem claim_C4_witness :
    ∃ ret s2, close_shift worker1 (some 90) (some 0) 7 exampleState1 =
        .ok (ret, s2) ∧
      ret.status = ShiftStatus.CLOSED ∧ ret.closedAt = some 7 ∧
      ret.reportedCash = some 90 ∧ ret.reportedBank = some 0 ∧
      ret.cashDiff = some (exampleShift1.currentBalanceCash - 90) ∧
      ret.bankDiff = some (exampleShift1.currentBalanceBank - 0) ∧
      (∀ x ∈ s2.shifts, x.id = exampleShift1.id →
        x.status = ShiftStatus.CLOSED ∧
        x.cashDiff = some (exampleShift1.currentBalanceCash - 90) ∧
        x.bankDiff = some (exampleShift1.currentBalanceBank - 0)) ∧
      (∀ rc rb t2, close_shift worker1 rc rb t2 s2 =
        .error (.noActiveShift "Нет активной смены.")) :=
  claim_C4 worker1 90 0 7 exampleState1 exampleShift1 exampleState1_reachable
    (by simp [get_active_shift, exampleState1, worker1, exampleShift1])

/-- C1: on every reachable state each worker has at most one open shift;
`open_shift` for a worker who already has one raises ValidationError and
leaves the database unchanged; and every service call preserves the
bound. -/
theorem claim_C1 (s : DBState) (hreach : Reachable s) (w : Nat) :
    countOpenFor w s ≤ 1 ∧
    (∀ worker : User, ∀ cash bank : ℚ, worker.id = w →
      get_active_shift w s ≠ none →
      (∃ m, open_shift worker cash bank s = .error (.validation m)) ∧
      applyOp (Op.openShift worker cash bank) s = s) ∧
    (∀ op : Op, countOpenFor w (applyOp op s) ≤ 1) := by
  have inv := reachable_invariant hreach
  refine ⟨inv.openCount w, ?_, ?_⟩
  · intro worker cash bank hwid hne
    cases hga : get_active_shift worker.id s with
    | none =>
        rw [hwid] at hga
        exact absurd hga hne
    | some sh =>
        constructor
        · by_cases h1 : cash < 0 ∨ bank < 0
          · exact ⟨"Суммы должны быть неотрицательными.",
              by rw [open_shift, if_pos h1]⟩
          by_cases h2 : cash = 0 ∧ bank = 0
          · exact ⟨"Нужно указать хотя бы одно значение больше 0.",
              by rw [open_shift, if_neg h1, if_pos h2]⟩
          · exact ⟨"У вас уже есть открытая смена.",
              by rw [open_shift, if_neg h1, if_neg h2, hga]⟩
        · simp only [applyOp]
          cases hres : open_shift worker cash bank s with
          | error e => rfl
          | ok p =>
              obtain ⟨ret, s2⟩ := p
              obtain ⟨hga2, -⟩ := open_shift_ok_shape hres
              rw [hga] at hga2
              exact Option.noConfusion hga2
  · intro op
    exact (invariant_step op s inv).openCount w

/-- Witness for C1: `exampleState1` has exactly one open shift for worker 1
and re-opening fails without touching the state. -/
theorem claim_C1_witness :
    countOpenFor 1 exampleState1 ≤ 1 ∧
    (∃ m, open_shift worker1 5 5 exampleState1 = .error (.validation m)) ∧
    applyOp (Op.openShift worker1 5 5) exampleState1 = exampleState1 := by
  have h := claim_C1 exampleState1 exampleState1_reachable 1
  have h2 := h.2.1 worker1 5 5 rfl
    (by simp [get_active_shift, exampleState1, worker1, exampleShift1])
  exact ⟨h.1, h2.1, h2.2⟩

/-- C9: one `close_open_shifts` run closes every open shift (stamping
`closed_at`), returns their count, leaves already-closed rows and the other
tables alone, and a second run finds nothing, changes nothing and
returns 0. -/
theorem claim_C9 (s : DBState) (t1 t2 : Nat) :
    (close_open_shifts t1 s).1 =
      (s.shifts.filter (fun sh => sh.status == ShiftStatus.OPEN)).length ∧
    (∀ x ∈ (close_open_shifts t1 s).2.shifts, x.status = ShiftStatus.CLOSED) ∧
    (∀ y ∈ s.shifts, y.status = ShiftStatus.OPEN →
      ({ y with status := ShiftStatus.CLOSED, closedAt := some t1 } : Shift) ∈
        (close_open_shifts t1 s).2.shifts) ∧
    (∀ y ∈ s.shifts, y.status = ShiftStatus.CLOSED →
      y ∈ (close_open_shifts t1 s).2.shifts) ∧
    (close_open_shifts t1 s).2.deals = s.deals ∧
    (close_open_shifts t1 s).2.txs = s.txs ∧
    close_open_shifts t2 (close_open_shifts t1 s).2 =
      (0, (close_open_shifts t1 s).2) := by
  have hclosed : ∀ x ∈ (close_open_shifts t1 s).2.shifts,
      x.status = ShiftStatus.CLOSED := by
    intro x hx
    simp only [close_open_shifts, List.mem_map] at hx
    obtain ⟨c, hc, rfl⟩ := hx
    by_cases hco : c.status == ShiftStatus.OPEN
    · rw [if_pos hco]
    · rw [if_neg hco]
      cases hcs : c.status with
      | OPEN => exact absurd (by rw [hcs]; rfl) hco
      | CLOSED => rfl
  refine ⟨rfl, hclosed, ?_, ?_, rfl, rfl, ?_⟩
  · intro y hy hyo
    simp only [close_open_shifts, List.mem_map]
    refine ⟨y, hy, ?_⟩
    rw [if_pos (by rw [hyo]; rfl)]
  · intro y hy hyc
    simp only [close_open_shifts, List.mem_map]
    refine ⟨y, hy, ?_⟩
    rw [if_neg (by rw [hyc]; simp)]
  · have hnil : (close_open_shifts t1 s).2.shifts.filter
        (fun sh => sh.status == ShiftStatus.OPEN) = [] := by
      rw [List.filter_eq_nil_iff]
      intro a ha
      rw [hclosed a ha]
      simp
    have hmap : (close_open_shifts t1 s).2.shifts.map (fun sh =>
        if sh.status == ShiftStatus.OPEN then
          { sh with status := ShiftStatus.CLOSED, closedAt := some t2 }
        else sh) = (close_open_shifts t1 s).2.shifts := by
      rw [List.map_congr_left (fun a ha => by
        rw [if_neg (by rw [hclosed a ha]; simp)])]
      simp
    rw [close_open_shifts, hnil, hmap]
    rfl

/-- Witness for C9: the sweep on `exampleState1` closes its single open
shift, and the second run is a no-op returning 0. -/
theorem claim_C9_witness :
    (close_open_shifts 9 exampleState1).1 =
      (exampleState1.shifts.filter
        (fun sh => sh.status == ShiftStatus.OPEN)).length ∧
    ({ exampleShift1 with
         status := ShiftStatus.CLOSED, closedAt := some 9 } : Shift) ∈
      (close_open_shifts 9 exampleState1).2.shifts ∧
    close_open_shifts 10 (close_open_shifts 9 exampleState1).2 =
      (0, (close_open_shifts 9 exampleState1).2) := by
  have h := claim_C9 exampleState1 9 10
  exact ⟨h.1, h.2.2.1 exampleShift1 (by simp [exampleState1]) rfl,
    h.2.2.2.2.2.2⟩

/-- Filtering after a soft delete of row `k` is filtering the original
list and dropping row `k`, provided the filter rejects deleted rows. -/
lemma filter_map_delete (p : Deal → Bool) (k : Nat) (l : List Deal)
    (hdel : ∀ x : Deal, p { x with isDeleted := true } = false) :
    (l.map (fun x =>
      if x.id = k then { x with isDeleted := true } else x)).filter p
      = (l.filter p).filter (fun x => !(x.id == k)) := by
  rw [List.filter_filter]
  induction l with
  | nil => rfl
  | cons c cs ih =>
      simp only [List.map_cons, List.filter_cons]
      by_cases hck : c.id = k
      · rw [if_pos hck, hdel c]
        have h2 : ((!(c.id == k)) && p c) = false := by
          simp [hck]
        rw [if_neg (by simp), if_neg (by simp [h2])]
        exact ih
      · rw [if_neg hck]
        have h2 : ((!(c.id == k)) && p c) = p c := by
          simp [hck]
        rw [h2]
        by_cases hpc : p c = true
        · rw [if_pos hpc, if_pos hpc, ih]
        · rw [if_neg hpc, if_neg hpc]
          exact ih

/-- C7: an admin calling `soft_delete_deal` on an existing deal only flips
`is_deleted`: shifts (hence all balances) and the CashTransaction ledger
are untouched, other deals are unchanged, and the deal disappears from
`list_worker_deals`, `get_worker_deal` and the `build_deals_report`
aggregates. -/
theorem claim_C7 (admin : User) (dealId : Nat) (s : DBState) (d : Deal)
    (hadmin : admin.role = UserRole.ADMIN)
    (hd : s.deals.find? (fun x => x.id == dealId) = some d) :
    ∃ ret s2, soft_delete_deal admin dealId s = .ok (ret, s2) ∧
      ret = { d with isDeleted := true } ∧
      s2.shifts = s.shifts ∧ s2.txs = s.txs ∧
      (∀ x ∈ s2.deals, x.id = dealId → x.isDeleted = true) ∧
      (∀ x ∈ s2.deals, x.id ≠ dealId → x ∈ s.deals) ∧
      (∀ worker : User, ∀ limit : Nat,
        ∀ x ∈ list_worker_deals worker limit s2, x.id ≠ dealId) ∧
      (∀ worker : User, get_worker_deal worker dealId s2 = none) ∧
      (∀ startT endT : Nat, ∀ wf : Option Nat,
        report_deals startT endT wf s2 =
          (report_deals startT endT wf s).filter (fun x => !(x.id == dealId)) ∧
        build_deals_report_summary startT endT wf s2 =
          aggregate_columns ((report_deals startT endT wf s).filter
            (fun x => !(x.id == dealId)))) := by
  have hrole : ¬(admin.role ≠ UserRole.ADMIN) := by simp [hadmin]
  have heq : soft_delete_deal admin dealId s = .ok
      ({ d with isDeleted := true },
       { s with deals := s.deals.map (fun x =>
           if x.id = dealId then { x with isDeleted := true } else x) }) := by
    rw [soft_delete_deal, if_neg hrole, hd]
  have hmemdel : ∀ x ∈ s.deals.map (fun x =>
      if x.id = dealId then { x with isDeleted := true } else x),
      (x.id = dealId → x.isDeleted = true) ∧ (x.id ≠ dealId → x ∈ s.deals) := by
    intro x hx
    simp only [List.mem_map] at hx
    obtain ⟨c, hc, rfl⟩ := hx
    by_cases hck : c.id = dealId
    · rw [if_pos hck]
      exact ⟨fun _ => rfl, fun hne => absurd hck hne⟩
    · rw [if_neg hck]
      exact ⟨fun hh => absurd hh hck, fun _ => hc⟩
  refine ⟨_, _, heq, rfl, rfl, rfl, fun x hx => (hmemdel x hx).1,
    fun x hx => (hmemdel x hx).2, ?_, ?_, ?_⟩
  · intro worker limit x hx
    simp only [list_worker_deals] at hx
    have hx2 := List.mem_mergeSort.mp (List.mem_of_mem_take hx)
    rw [List.mem_filter] at hx2
    obtain ⟨hxm, hxp⟩ := hx2
    intro hxid
    have := (hmemdel x hxm).1 hxid
    simp [this] at hxp
  · intro worker
    rw [get_worker_deal, List.find?_eq_none]
    intro x hx
    simp only [Bool.and_eq_true, beq_iff_eq, Bool.not_eq_eq_eq_not,
      Bool.not_true]
    rintro ⟨⟨hxid, -⟩, hxdel⟩
    rw [(hmemdel x hx).1 hxid] at hxdel
    exact Bool.noConfusion hxdel
  · intro startT endT wf
    have hrep : report_deals startT endT wf
        { s with deals := s.deals.map (fun x =>
            if x.id = dealId then { x with isDeleted := true } else x) } =
        (report_deals startT endT wf s).filter (fun x => !(x.id == dealId)) := by
      rw [report_deals, report_deals]
      exact filter_map_delete _ dealId s.deals (fun x => by simp)
    exact ⟨hrep, by rw [build_deals_report_summary, hrep]⟩

/-- Witness for C7: deleting a concrete deal on a state with one deal. -/
theorem claim_C7_witness :
    ∃ ret s2, soft_delete_deal admin1 1 exampleState2 = .ok (ret, s2) ∧
      ret = { exampleDeal1 with isDeleted := true } ∧
      s2.shifts = exampleState2.shifts ∧ s2.txs = exampleState2.txs ∧
      (∀ x ∈ s2.deals, x.id = 1 → x.isDeleted = true) ∧
      (∀ x ∈ s2.deals, x.id ≠ 1 → x ∈ exampleState2.deals) ∧
      (∀ worker : User, ∀ limit : Nat,
        ∀ x ∈ list_worker_deals worker limit s2, x.id ≠ 1) ∧
      (∀ worker : User, get_worker_deal worker 1 s2 = none) ∧
      (∀ startT endT : Nat, ∀ wf : Option Nat,
        report_deals startT endT wf s2 =
          (report_deals startT endT wf exampleState2).filter
            (fun x => !(x.id == 1)) ∧
        build_deals_report_summary startT endT wf s2 =
          aggregate_columns ((report_deals startT endT wf exampleState2).filter
            (fun x => !(x.id == 1)))) :=
  claim_C7 admin1 1 exampleState2 exampleDeal1 rfl
    (by simp [exampleState2, exampleDeal1])

/-- C10: closing with both reported amounts absent — directly or via the
sweep — still marks the shift closed with `closed_at` set, but performs no
reconciliation: `reported_cash`, `reported_bank`, `cash_diff`, `bank_diff`
and `reported_at` all stay `None`. -/
theorem claim_C10 (s : DBState) (hreach : Reachable s) (worker : User)
    (t : Nat) (sh : Shift)
    (hsh : get_active_shift worker.id s = some sh) :
    (∃ ret s2, close_shift worker none none t s = .ok (ret, s2) ∧
      ret.status = ShiftStatus.CLOSED ∧ ret.closedAt = some t ∧
      ret.reportedCash = none ∧ ret.reportedBank = none ∧
      ret.cashDiff = none ∧ ret.bankDiff = none ∧ ret.reportedAt = none) ∧
    (∀ y ∈ s.shifts, y.status = ShiftStatus.OPEN →
      ({ y with status := ShiftStatus.CLOSED, closedAt := some t } : Shift) ∈
        (close_open_shifts t s).2.shifts ∧
      y.reportedCash = none ∧ y.reportedBank = none ∧ y.cashDiff = none ∧
      y.bankDiff = none ∧ y.reportedAt = none) := by
  have inv := reachable_invariant hreach
  obtain ⟨hmem, hwid, hstat⟩ := get_active_shift_mem hsh
  constructor
  · have heq : close_shift worker none none t s = .ok
        (closeShiftUpd none none t sh,
         { s with shifts := s.shifts.map (fun c =>
             if c.id = sh.id then closeShiftUpd none none t c else c) }) := by
      rw [close_shift, hsh]
    obtain ⟨hrc, hrb, hcd, hbd, hra⟩ := closeShiftUpd_none t sh
    obtain ⟨g1, g2, g3, g4, g5⟩ := inv.openClean sh hmem hstat
    exact ⟨_, _, heq, (closeShiftUpd_frame none none t sh).2.2.1,
      (closeShiftUpd_frame none none t sh).2.2.2.1,
      hrc.trans g1, hrb.trans g2, hcd.trans g3, hbd.trans g4, hra.trans g5⟩
  · intro y hy hyo
    refine ⟨?_, inv.openClean y hy hyo⟩
    simp only [close_open_shifts, List.mem_map]
    exact ⟨y, hy, by rw [if_pos (by rw [hyo]; rfl)]⟩

/-- Witness for C10: closing the shift of `exampleState1` with nothing reported
leaves all reconciliation fields `None`. -/
theorem claim_C10_witness :
    ∃ ret s2, close_shift worker1 none none 8 exampleState1 = .ok (ret, s2) ∧
      ret.status = ShiftStatus.CLOSED ∧ ret.closedAt = some 8 ∧
      ret.reportedCash = none ∧ ret.reportedBank = none ∧
      ret.cashDiff = none ∧ ret.bankDiff = none ∧ ret.reportedAt = none :=
  (claim_C10 exampleState1 exampleState1_reachable worker1 8 exampleShift1
    (by simp [get_active_shift, exampleState1, worker1, exampleShift1])).1

/-- C8 (amended): a non-admin attempt to delete a deal fails with
`Forbidden` and changes nothing; a non-admin balance adjustment also fails
and changes nothing, but with the admin-service `ValidationError`, not
`Forbidden`. -/
theorem claim_C8 (caller : User) (hrole : caller.role ≠ UserRole.ADMIN)
    (dealId : Nat) (phone : String) (delta : ℚ)
    (m : Option DealPaymentMethod) (s : DBState) :
    soft_delete_deal caller dealId s =
      .error (.forbidden "Только админ может удалять операции.") ∧
    applyOp (Op.softDeleteDeal caller dealId) s = s ∧
    adjust_worker_balance caller phone delta m s =
      .error (.validation "Только админ может корректировать баланс.") ∧
    applyOp (Op.adjustWorkerBalance caller phone delta m) s = s := by
  have h1 : soft_delete_deal caller dealId s =
      .error (.forbidden "Только админ может удалять операции.") := by
    rw [soft_delete_deal, if_pos hrole]
  have h2 : adjust_worker_balance caller phone delta m s =
      .error (.validation "Только админ может корректировать баланс.") := by
    rw [adjust_worker_balance, if_pos hrole]
  exact ⟨h1, by simp [applyOp, h1], h2, by simp [applyOp, h2]⟩

/-- Witness for C8: worker 1 (role `WORKER`) can neither delete nor
adjust on `exampleState1`. -/
theorem claim_C8_witness :
    soft_delete_deal worker1 1 exampleState1 =
      .error (.forbidden "Только админ может удалять операции.") ∧
    applyOp (Op.softDeleteDeal worker1 1) exampleState1 = exampleState1 ∧
    adjust_worker_balance worker1 "79990000001@c.us" 10 none exampleState1 =
      .error (.validation "Только админ может корректировать баланс.") ∧
    applyOp (Op.adjustWorkerBalance worker1 "79990000001@c.us" 10 none)
      exampleState1 = exampleState1 :=
  claim_C8 worker1 (by simp [worker1]) 1 "79990000001@c.us" 10 none
    exampleState1

/-- Counterexample for C8 as stated: the non-admin balance adjustment does
not raise `Forbidden` — it raises the admin-service ValidationError. -/
theorem claim_C8_counterexample :
    adjust_worker_balance worker1 "79990000001@c.us" 10 none exampleState1 =
      .error (.validation "Только админ может корректировать баланс.") ∧
    isForbiddenResult
      (adjust_worker_balance worker1 "79990000001@c.us" 10 none exampleState1)
      = false := by
  have h : adjust_worker_balance worker1 "79990000001@c.us" 10 none
      exampleState1 =
      .error (.validation "Только админ может корректировать баланс.") := by
    rw [adjust_worker_balance, if_pos (by simp [worker1])]
  exact ⟨h, by rw [h]; rfl⟩

/-- C5: for price > 0, percent in [1,100], term in [1,120] and
0 ≤ down_payment ≤ total, the installment computation yields
markup = price·percent/100, total = price + markup,
monthly = round_half_up((total − down_payment)/term); in particular
price=1000, percent=20, term=5, down=200 gives monthly=200 and
price=1000, percent=15, term=3, down=0 gives monthly=383. -/
theorem claim_C5 :
    (∀ price percent downPayment : ℚ, ∀ term : Nat,
        0 < price → 1 ≤ percent → percent ≤ 100 → 1 ≤ term → term ≤ 120 →
        0 ≤ downPayment → downPayment ≤ (calc_installment_total price percent).2.2.2 →
        (calc_installment_total price percent).2.2.1 = price * percent / 100 ∧
        (calc_installment_total price percent).2.2.2 = price + price * percent / 100 ∧
        installment_monthly (calc_installment_total price percent).2.2.2 downPayment term =
          roundHalfUp (((calc_installment_total price percent).2.2.2 - downPayment) /
            (term : ℚ))) ∧
    calc_installment_total 1000 20 = (1000, 20, 200, 1200) ∧
    installment_monthly 1200 200 5 = 200 ∧
    calc_installment_total 1000 15 = (1000, 15, 150, 1150) ∧
    installment_monthly 1150 0 3 = 383 := by
  refine ⟨?_, ?_, ?_, ?_, ?_⟩
  · intro price percent downPayment term _ _ _ hterm _ _ _
    refine ⟨rfl, rfl, ?_⟩
    have : term ≠ 0 := by omega
    simp [installment_monthly, calc_installment_total, this]
  · norm_num [calc_installment_total]
  · norm_num [installment_monthly, roundHalfUp, Int.floor_eq_iff]
  · norm_num [calc_installment_total]
  · norm_num [installment_monthly, roundHalfUp, Int.floor_eq_iff]

/-- Witness for C5: the general formula instantiated at price=1000,
percent=20, term=5, down_payment=200. -/
theorem claim_C5_witness :
    (calc_installment_total 1000 20).2.2.1 = 1000 * 20 / 100 ∧
    (calc_installment_total 1000 20).2.2.2 = 1000 + 1000 * 20 / 100 ∧
    installment_monthly (calc_installment_total 1000 20).2.2.2 200 5 =
      roundHalfUp (((calc_installment_total 1000 20).2.2.2 - 200) / (5 : ℚ)) :=
  claim_C5.1 1000 20 200 5 (by norm_num) (by norm_num) (by norm_num) (by norm_num)
    (by norm_num) (by norm_num) (by norm_num [calc_installment_total])

/-- C6: `open_shift` rejects a negative amount, rejects both amounts zero,
rejects a worker who already has an open shift — each with
ValidationError — and on success creates exactly one Shift whose current
balances equal the opening balances plus exactly one OPENING
CashTransaction with `amount_delta = opening_cash + opening_bank`. -/
theorem claim_C6 (worker : User) (cash bank : ℚ) (s : DBState) :
    ((cash < 0 ∨ bank < 0) →
      open_shift worker cash bank s =
        .error (.validation "Суммы должны быть неотрицательными.")) ∧
    (cash = 0 ∧ bank = 0 →
      open_shift worker cash bank s =
        .error (.validation "Нужно указать хотя бы одно значение больше 0.")) ∧
    (0 ≤ cash → 0 ≤ bank → ¬(cash = 0 ∧ bank = 0) →
      (∃ sh, get_active_shift worker.id s = some sh) →
      open_shift worker cash bank s =
        .error (.validation "У вас уже есть открытая смена.")) ∧
    (0 ≤ cash → 0 ≤ bank → ¬(cash = 0 ∧ bank = 0) →
      get_active_shift worker.id s = none →
      ∃ sh s2, open_shift worker cash bank s = .ok (sh, s2) ∧
        sh.workerId = worker.id ∧ sh.status = ShiftStatus.OPEN ∧
        sh.openingBalanceCash = cash ∧ sh.openingBalanceBank = bank ∧
        sh.currentBalanceCash = cash ∧ sh.currentBalanceBank = bank ∧
        sh.currentBalance = cash + bank ∧
        s2.shifts = s.shifts ++ [sh] ∧
        s2.txs = s.txs ++
          [{ workerId := worker.id, shiftId := sh.id,
             type := CashTransactionType.OPENING, amountDelta := cash + bank }] ∧
        s2.deals = s.deals ∧ s2.users = s.users) := by
  refine ⟨?_, ?_, ?_, ?_⟩
  · intro h
    simp [open_shift, h]
  · rintro ⟨hc, hb⟩
    have : ¬(cash < 0 ∨ bank < 0) := by
      push_neg
      constructor <;> simp [hc, hb]
    simp [open_shift, this, hc, hb]
  · rintro hc hb hz ⟨sh, hsh⟩
    have : ¬(cash < 0 ∨ bank < 0) := by push_neg; exact ⟨hc, hb⟩
    simp [open_shift, this, hz, hsh]
  · intro hc hb hz hnone
    have hneg : ¬(cash < 0 ∨ bank < 0) := by push_neg; exact ⟨hc, hb⟩
    have heq : open_shift worker cash bank s = .ok
        ({ id := s.nextShiftId, workerId := worker.id, openingBalanceCash := cash,
           openingBalanceBank := bank, currentBalanceCash := cash,
           currentBalanceBank := bank, openingBalance := cash + bank,
           currentBalance := cash + bank, status := ShiftStatus.OPEN },
         { s with
             shifts := s.shifts ++
               [{ id := s.nextShiftId, workerId := worker.id,
                  openingBalanceCash := cash, openingBalanceBank := bank,
                  currentBalanceCash := cash, currentBalanceBank := bank,
                  openingBalance := cash + bank, currentBalance := cash + bank,
                  status := ShiftStatus.OPEN }]
             txs := s.txs ++
               [{ workerId := worker.id, shiftId := s.nextShiftId,
                  type := CashTransactionType.OPENING, amountDelta := cash + bank }]
             nextShiftId := s.nextShiftId + 1 }) := by
      simp [open_shift, hneg, hz, hnone]
    exact ⟨_, _, heq, rfl, rfl, rfl, rfl, rfl, rfl, rfl, rfl, rfl, rfl, rfl⟩

/-- Witness for C6: the three rejection branches and the success branch on
concrete inputs over the empty database and over `exampleState1`. -/
theorem claim_C6_witness :
    open_shift worker1 (-1) 0 initState =
      .error (.validation "Суммы должны быть неотрицательными.") ∧
    open_shift worker1 0 0 initState =
      .error (.validation "Нужно указать хотя бы одно значение больше 0.") ∧
    open_shift worker1 50 0 exampleState1 =
      .error (.validation "У вас уже есть открытая смена.") ∧
    ∃ sh s2, open_shift worker1 100 0 initState = .ok (sh, s2) ∧
      sh.workerId = worker1.id ∧ sh.status = ShiftStatus.OPEN ∧
      sh.openingBalanceCash = 100 ∧ sh.openingBalanceBank = 0 ∧
      sh.currentBalanceCash = 100 ∧ sh.currentBalanceBank = 0 ∧
      sh.currentBalance = 100 + 0 ∧
      s2.shifts = initState.shifts ++ [sh] ∧
      s2.txs = initState.txs ++
        [{ workerId := worker1.id, shiftId := sh.id,
           type := CashTransactionType.OPENING, amountDelta := 100 + 0 }] ∧
      s2.deals = initState.deals ∧ s2.users = initState.users :=
  ⟨(claim_C6 worker1 (-1) 0 initState).1 (Or.inl (by norm_num)),
   (claim_C6 worker1 0 0 initState).2.1 ⟨rfl, rfl⟩,
   (claim_C6 worker1 50 0 exampleState1).2.2.1 (by norm_num) (by norm_num)
     (by norm_num)
     ⟨exampleShift1, by
        simp [get_active_shift, exampleState1, worker1, exampleShift1]⟩,
   (claim_C6 worker1 100 0 initState).2.2.2 (by norm_num) (by norm_num)
     (by norm_num) (by simp [get_active_shift, initState])⟩

end Crm
